import Mathlib

/-!
Verification of the circle-cctp-transfer tool (src/cross-chain-transfer.js).

The JavaScript program is shallowly embedded as follows.

* JS strings are Lean `String`; JS built-ins that Lean implements with
  well-founded recursion (trim, toLowerCase, padStart, the regex replace)
  are re-implemented over `List Char` so they compute by kernel reduction.
* JS numbers are modelled as `ℚ`.  Every numeric value a claim touches is
  an integer (transfer amount 50, balance 100, 10^6 scaling), where
  rational arithmetic agrees with IEEE doubles exactly.
* External services (the Circle custody API, the attestation HTTP API,
  the interactive prompts) are modelled as oracles carried in environment
  records (`SagaEnv`, `RecoveryEnv`): a function from the query made by the
  code to the response the environment chooses to give.
* Thrown-and-caught JS errors become `Except String` values; a `while`
  loop bounded by `attempts < maxAttempts` becomes structural recursion on
  the fuel `maxAttempts - attempts`, with `attempts` kept as the index of
  the next status query.
* The observable behaviour of a run is the list of contract-execution
  transactions it submits (`ContractCall`, in submission order) together
  with its final outcome.
-/

/-! ## JS string built-ins, re-implemented over the character list -/

/-- JS `String.prototype.trim`: strips leading and trailing whitespace. -/
def trimJS (s : String) : String :=
  String.mk (((s.data.dropWhile Char.isWhitespace).reverse.dropWhile Char.isWhitespace).reverse)

/-- JS `String.prototype.toLowerCase` (ASCII range suffices here). -/
def toLowerJS (s : String) : String := String.mk (s.data.map Char.toLower)

/-- JS `address.replace(/^0x/, "")`: removes one leading "0x" if present. -/
def strip0x : List Char → List Char
  | '0' :: 'x' :: rest => rest
  | l => l

/-- JS `String.prototype.padStart(n, c)`: left-pads to length `n`; a string
already at least `n` long is returned unchanged. -/
def padStartL (n : Nat) (c : Char) (l : List Char) : List Char :=
  if l.length < n then List.replicate (n - l.length) c ++ l else l

/-- JS `Number.prototype.toString` restricted to the values this program
prints: an integer-valued number prints as its plain decimal string.  The
fallback branch (never reached by any claim) renders num/den. -/
def numToString (q : ℚ) : String :=
  if q.den = 1 then toString q.num else toString q.num ++ "/" ++ toString q.den

/-! ## Chain tables (src/cross-chain-transfer.js lines 13-19, 563-601) -/

/-- One entry of the SUPPORTED_NETWORKS table. -/
structure NetworkInfo where
  name : String
  code : String
  usdcContract : String
deriving DecidableEq, Repr

/-- The SUPPORTED_NETWORKS lookup (lines 13-19); `none` models a missing key. -/
def SUPPORTED_NETWORKS (code : String) : Option NetworkInfo :=
  if code = "ETH" then
    some ⟨"Ethereum Mainnet", "ETH", "0xA0b86a33E6441d7c4c5e2F4e7A1b7C4e5d6f7e8f"⟩
  else if code = "MATIC" then
    some ⟨"Polygon Mainnet", "MATIC", "0x2791Bca1f2de4661ED88A30C99A7a9449Aa84174"⟩
  else if code = "AVAX" then
    some ⟨"Avalanche C-Chain", "AVAX", "0xB97EF9Ef8734C71904D8002F8b6Bc66Dd9c48a6E"⟩
  else if code = "ETH-SEPOLIA" then
    some ⟨"Ethereum Sepolia (Testnet)", "ETH-SEPOLIA", "0x1c7D4B196Cb0C7B01d743Fbc6116a902379C7238"⟩
  else if code = "MATIC-AMOY" then
    some ⟨"Polygon Amoy (Testnet)", "MATIC-AMOY", "0x41E94Eb019C0762f9Bfcf9Fb1E58725BfB0e7582"⟩
  else none

/-- Reads `SUPPORTED_NETWORKS[b].usdcContract`; the program only evaluates it
for keys present in the table, so the fallback is unreachable. -/
def usdcContractOf (b : String) : String :=
  ((SUPPORTED_NETWORKS b).map NetworkInfo.usdcContract).getD "undefined"

/-- getCCTPDomainId (lines 581-596): switch over the chain code, throwing on
an unsupported chain.  The thrown error is the `Except.error` case. -/
def getCCTPDomainId (blockchain : String) : Except String Nat :=
  if blockchain = "ETH" then .ok 0
  else if blockchain = "MATIC" then .ok 7
  else if blockchain = "AVAX" then .ok 1
  else if blockchain = "ETH-SEPOLIA" then .ok 0
  else if blockchain = "MATIC-AMOY" then .ok 7
  else .error ("Unsupported blockchain: " ++ blockchain)

/-- getMessageTransmitterAddress (lines 563-578): switch over the chain code,
throwing on an unsupported chain. -/
def getMessageTransmitterAddress (blockchain : String) : Except String String :=
  if blockchain = "ETH" then .ok "0x0a992d191deec32afe36203ad87d7d289a738f81"
  else if blockchain = "MATIC" then .ok "0xF3be9355363857F3e001be68856A2f96b4C39Ba9"
  else if blockchain = "AVAX" then .ok "0x8186359aF5F57FbB40c6b14A588d2A59C0C29880"
  else if blockchain = "ETH-SEPOLIA" then .ok "0x7865fAfC2db2093669d92c0F33AeEF291086BEFD"
  else if blockchain = "MATIC-AMOY" then .ok "0x7865fAfC2db2093669d92c0F33AeEF291086BEFD"
  else .error ("Unsupported blockchain: " ++ blockchain)

/-- addressToBytes32 (lines 599-601):
`0x${address.replace(/^0x/, "").padStart(64, "0")}`. -/
def addressToBytes32 (address : String) : String :=
  String.mk ('0' :: 'x' :: padStartL 64 '0' (strip0x address.data))

/-- Hex digit test, used to state the spec sentences about hex characters. -/
def isHexChar (c : Char) : Bool :=
  c.isDigit || ('a' ≤ c && c ≤ 'f') || ('A' ≤ c && c ≤ 'F')

/-- Modelled from the spec: the code has no address validation, so the
well-formedness notion of section 4.1 ("a 20-byte hex address", optional 0x
prefix) is taken from the spec text. -/
def isWellFormedHexAddress (s : String) : Bool :=
  (strip0x s.data).length = 40 && (strip0x s.data).all isHexChar

/-! ## Basic facts about the encoder -/

lemma addressToBytes32_data (a : String) :
    (addressToBytes32 a).data = '0' :: 'x' :: padStartL 64 '0' (strip0x a.data) := rfl

lemma le_length_padStartL (n : Nat) (c : Char) (l : List Char) :
    n ≤ (padStartL n c l).length := by
  unfold padStartL
  split
  · simp
    omega
  · omega

lemma padStartL_of_le (n : Nat) (c : Char) (l : List Char) (h : n ≤ l.length) :
    padStartL n c l = l := by
  unfold padStartL
  rw [if_neg (by omega)]

lemma length_padStartL_of_le (n : Nat) (c : Char) (l : List Char) (h : l.length ≤ n) :
    (padStartL n c l).length = n := by
  unfold padStartL
  split
  · simp
    omega
  · omega

lemma padStartL_of_lt (n : Nat) (c : Char) (l : List Char) (h : l.length < n) :
    padStartL n c l = List.replicate (n - l.length) c ++ l := by
  unfold padStartL
  rw [if_pos h]

/-! ## Claim C4: the domain id lookup -/

/-- C4: for every supported chain identifier, getCCTPDomainId returns the
fixed integer of the lookup table (ETH and ETH-SEPOLIA map to 0, AVAX to 1,
MATIC and MATIC-AMOY to 7); every other input fails with the
unsupported-chain error. -/
theorem getCCTPDomainId_spec :
    getCCTPDomainId "ETH" = Except.ok 0 ∧
    getCCTPDomainId "ETH-SEPOLIA" = Except.ok 0 ∧
    getCCTPDomainId "AVAX" = Except.ok 1 ∧
    getCCTPDomainId "MATIC" = Except.ok 7 ∧
    getCCTPDomainId "MATIC-AMOY" = Except.ok 7 ∧
    ∀ s : String, s ∉ ["ETH", "MATIC", "AVAX", "ETH-SEPOLIA", "MATIC-AMOY"] →
      getCCTPDomainId s = Except.error ("Unsupported blockchain: " ++ s) := by
  refine ⟨rfl, rfl, rfl, rfl, rfl, ?_⟩
  intro s hs
  simp only [List.mem_cons, List.not_mem_nil, or_false, not_or] at hs
  obtain ⟨h1, h2, h3, h4, h5⟩ := hs
  unfold getCCTPDomainId
  rw [if_neg h1, if_neg h2, if_neg h3, if_neg h4, if_neg h5]

/-- Witness for C4 at the concrete unsupported input "DOGE". -/
theorem getCCTPDomainId_spec_witness :
    getCCTPDomainId "DOGE" = Except.error "Unsupported blockchain: DOGE" :=
  getCCTPDomainId_spec.2.2.2.2.2 "DOGE" (by decide)

/-! ## Claim C5: idempotence and output length of the address encoder -/

/-- C5 counterexample: the claim that the output always has exactly 64 hex
characters after the 0x prefix fails; an input of 65 characters (here 65
copies of the non-hex character z) yields 65 characters after the prefix,
because padStart never truncates. -/
theorem addressToBytes32_len_counterexample :
    ¬ ∀ a : String, ∃ t : List Char,
        (addressToBytes32 a).data = '0' :: 'x' :: t ∧ t.length = 64 ∧ t.all isHexChar = true := by
  intro h
  obtain ⟨t, hd, hlen, _⟩ := h (String.mk (List.replicate 65 'z'))
  have hData : (addressToBytes32 (String.mk (List.replicate 65 'z'))).data
      = '0' :: 'x' :: List.replicate 65 'z' := by decide
  rw [hData] at hd
  injection hd with _ hd
  injection hd with _ hd
  rw [← hd] at hlen
  simp at hlen

/-- C5 (amended): addressToBytes32 is idempotent on every input string; and
for every input whose 0x-stripped form has at most 64 characters, the output
has exactly 64 characters after the 0x prefix (inputs with a longer stripped
form keep all their characters, so their output is longer, and the output
characters are hex only when the input characters are). -/
theorem addressToBytes32_idem_and_len :
    (∀ a : String, addressToBytes32 (addressToBytes32 a) = addressToBytes32 a) ∧
    (∀ a : String, (strip0x a.data).length ≤ 64 →
      ∃ t : List Char, (addressToBytes32 a).data = '0' :: 'x' :: t ∧ t.length = 64) := by
  constructor
  · intro a
    have h64 : 64 ≤ (padStartL 64 '0' (strip0x a.data)).length :=
      le_length_padStartL 64 '0' (strip0x a.data)
    unfold addressToBytes32
    congr 1
    show '0' :: 'x' :: padStartL 64 '0' (strip0x (String.mk ('0' :: 'x' :: padStartL 64 '0' (strip0x a.data))).data)
        = '0' :: 'x' :: padStartL 64 '0' (strip0x a.data)
    have hstrip : strip0x ('0' :: 'x' :: padStartL 64 '0' (strip0x a.data))
        = padStartL 64 '0' (strip0x a.data) := rfl
    show '0' :: 'x' :: padStartL 64 '0' (strip0x ('0' :: 'x' :: padStartL 64 '0' (strip0x a.data)))
        = '0' :: 'x' :: padStartL 64 '0' (strip0x a.data)
    rw [hstrip, padStartL_of_le 64 '0' _ h64]
  · intro a h
    exact ⟨padStartL 64 '0' (strip0x a.data), rfl,
      length_padStartL_of_le 64 '0' (strip0x a.data) h⟩

/-- Witness for C5 at the concrete input "abc". -/
theorem addressToBytes32_idem_and_len_witness :
    addressToBytes32 (addressToBytes32 "abc") = addressToBytes32 "abc" ∧
    ∃ t : List Char, (addressToBytes32 "abc").data = '0' :: 'x' :: t ∧ t.length = 64 :=
  ⟨addressToBytes32_idem_and_len.1 "abc",
   addressToBytes32_idem_and_len.2 "abc" (by decide)⟩

/-! ## Claim C6: left-padding and the absent validation -/

/-- C6 counterexample: the non-hex input "zz" is not rejected; the function
performs no validation at all, so the invalid characters flow into the
output and no invalid-address failure exists anywhere in the code. -/
theorem addressToBytes32_no_validation_counterexample :
    isWellFormedHexAddress "zz" = false ∧
    addressToBytes32 "zz" = String.mk ('0' :: 'x' :: (List.replicate 62 '0' ++ ['z', 'z'])) ∧
    'z' ∈ (addressToBytes32 "zz").data ∧ isHexChar 'z' = false := by
  refine ⟨rfl, by decide, by decide, rfl⟩

/-- C6 (amended): addressToBytes32 left-pads a 20-byte hex address (optional
0x prefix, 40 hex characters) with zeros to 32 bytes; it performs no
validation and never fails, inputs that are not well-formed are padded and
returned with their characters intact. -/
theorem addressToBytes32_leftpad :
    ∀ a : String, isWellFormedHexAddress a = true →
      addressToBytes32 a = String.mk ('0' :: 'x' :: (List.replicate 24 '0' ++ strip0x a.data)) := by
  intro a h
  unfold isWellFormedHexAddress at h
  rw [Bool.and_eq_true] at h
  have hlen : (strip0x a.data).length = 40 := by
    have := h.1
    simpa using this
  unfold addressToBytes32
  congr 1
  rw [padStartL_of_lt 64 '0' _ (by omega), hlen]

/-- Witness for C6 at a concrete 40-hex-character address. -/
theorem addressToBytes32_leftpad_witness :
    addressToBytes32 "0x1111111111111111111111111111111111111111"
      = String.mk ('0' :: 'x' ::
          (List.replicate 24 '0' ++ strip0x "0x1111111111111111111111111111111111111111".data)) :=
  addressToBytes32_leftpad "0x1111111111111111111111111111111111111111" (by decide)

/-! ## Transaction poller (waitForTransactionCompletion, lines 604-632) -/

/-- The `transaction` object read from a getTransaction response. -/
structure Transaction where
  state : String
  txHash : String
deriving DecidableEq, Repr

/-- Outcome of one status check: either `getTransaction` resolved (with
`txResponse.data?.transaction`, possibly absent) or it threw. -/
inductive CheckResult where
  | response (tx : Option Transaction)
  | failure (msg : String)
deriving DecidableEq, Repr

/-- A status check that observed state CONFIRMED. -/
def isConfirmedCheck : CheckResult → Bool
  | .response (some tx) => tx.state == "CONFIRMED"
  | _ => false

/-- The hash a confirmed check carries (dummy for the other shapes). -/
def txHashOf : CheckResult → String
  | .response (some tx) => tx.txHash
  | _ => ""

/-- The while loop of waitForTransactionCompletion.  `attempts` is the index
of the next status query, the fuel is `maxAttempts - attempts`; every branch
of the loop body either returns on CONFIRMED or increments `attempts` -
including the catch branch for a throwing status check. -/
def wfcLoop (r : Nat → CheckResult) (step : String) : Nat → Nat → Except String String
  | _, 0 => .error ("Timeout waiting for " ++ step ++ " transaction completion")
  | attempts, f + 1 =>
    match r attempts with
    | .response (some tx) =>
      if tx.state == "CONFIRMED" then .ok tx.txHash
      else wfcLoop r step (attempts + 1) f
    | .response none => wfcLoop r step (attempts + 1) f
    | .failure _ => wfcLoop r step (attempts + 1) f

/-- waitForTransactionCompletion with an explicit attempt budget.  `r` is the
environment: the response of the repeated `getTransaction({id: txId})` call
at each attempt index. -/
def waitForTransactionCompletionGen (r : Nat → CheckResult) (step : String)
    (maxAttempts : Nat) : Except String String :=
  wfcLoop r step 0 maxAttempts

/-- waitForTransactionCompletion as in the source: maxAttempts = 40. -/
def waitForTransactionCompletion (r : Nat → CheckResult) (step : String) : Except String String :=
  waitForTransactionCompletionGen r step 40

lemma wfcLoop_not_confirmed (r : Nat → CheckResult) (step : String) (a f : Nat)
    (h : isConfirmedCheck (r a) = false) :
    wfcLoop r step a (f + 1) = wfcLoop r step (a + 1) f := by
  cases hr : r a with
  | response otx =>
    cases otx with
    | none => simp only [wfcLoop, hr]
    | some tx =>
      have hb : (tx.state == "CONFIRMED") = false := by
        simpa [isConfirmedCheck, hr] using h
      simp only [wfcLoop, hr, hb, Bool.false_eq_true, if_false]
  | failure m => simp only [wfcLoop, hr]

lemma wfcLoop_confirmed (r : Nat → CheckResult) (step : String) (a f : Nat)
    (h : isConfirmedCheck (r a) = true) :
    wfcLoop r step a (f + 1) = .ok (txHashOf (r a)) := by
  cases hr : r a with
  | response otx =>
    cases otx with
    | none => simp [isConfirmedCheck, hr] at h
    | some tx =>
      have hb : (tx.state == "CONFIRMED") = true := by
        simpa [isConfirmedCheck, hr] using h
      simp only [wfcLoop, hr, hb, if_true, txHashOf]
  | failure m => simp [isConfirmedCheck, hr] at h

lemma wfcLoop_first_confirmed (r : Nat → CheckResult) (step : String) :
    ∀ (f n a : Nat), n < f →
      (∀ i, i < n → isConfirmedCheck (r (a + i)) = false) →
      isConfirmedCheck (r (a + n)) = true →
      wfcLoop r step a f = .ok (txHashOf (r (a + n))) := by
  intro f
  induction f with
  | zero => intro n a hn; omega
  | succ f ih =>
    intro n a hn hnot hc
    cases n with
    | zero =>
      simpa using wfcLoop_confirmed r step a f (by simpa using hc)
    | succ m =>
      rw [wfcLoop_not_confirmed r step a f (by simpa using hnot 0 (by omega))]
      have hshift : ∀ i, i < m → isConfirmedCheck (r (a + 1 + i)) = false := by
        intro i hi
        have := hnot (i + 1) (by omega)
        have heq : a + (i + 1) = a + 1 + i := by omega
        rwa [heq] at this
      have hc2 : isConfirmedCheck (r (a + 1 + m)) = true := by
        have heq : a + (m + 1) = a + 1 + m := by omega
        rwa [heq] at hc
      have heq2 : a + 1 + m = a + (m + 1) := by omega
      have := ih m (a + 1) (by omega) hshift hc2
      rwa [heq2] at this

lemma wfcLoop_timeout (r : Nat → CheckResult) (step : String) :
    ∀ (f a : Nat), (∀ i, i < f → isConfirmedCheck (r (a + i)) = false) →
      wfcLoop r step a f = .error ("Timeout waiting for " ++ step ++ " transaction completion") := by
  intro f
  induction f with
  | zero => intro a _; rfl
  | succ m ih =>
    intro a hnot
    rw [wfcLoop_not_confirmed r step a m (by simpa using hnot 0 (by omega))]
    exact ih (a + 1) (fun i hi => by
      have := hnot (i + 1) (by omega)
      have heq : a + (i + 1) = a + 1 + i := by omega
      rwa [heq] at this)

lemma wfcLoop_congr (step : String) :
    ∀ (f a : Nat) (r r' : Nat → CheckResult),
      (∀ i, a ≤ i → i < a + f → r i = r' i) →
      wfcLoop r step a f = wfcLoop r' step a f := by
  intro f
  induction f with
  | zero => intro a r r' _; rfl
  | succ m ih =>
    intro a r r' hag
    have h0 : r a = r' a := hag a (by omega) (by omega)
    have hrec := ih (a + 1) r r' (fun i h1 h2 => hag i (by omega) (by omega))
    cases hr : r' a with
    | response otx =>
      cases otx with
      | none => simp only [wfcLoop, h0, hr, hrec]
      | some tx =>
        simp only [wfcLoop, h0, hr]
        split
        · rfl
        · exact hrec
    | failure m2 => simp only [wfcLoop, h0, hr, hrec]

/-- Status sequence PENDING, PENDING, CONFIRMED. -/
def seqPPC : Nat → CheckResult := fun i =>
  if i = 2 then .response (some ⟨"CONFIRMED", "0xabc"⟩) else .response (some ⟨"PENDING", ""⟩)

/-- Status sequence that is PENDING forever. -/
def seqPPP : Nat → CheckResult := fun _ => .response (some ⟨"PENDING", ""⟩)

/-! ## Claim C2: contract of the transaction poller -/

/-- C2: the poller returns the transaction hash at the first check observed
CONFIRMED; it performs at most N status checks (the result depends only on
the first N responses), with N = 40 by default; it fails with the
poll-timeout error when N checks elapse without CONFIRMED; and on the
concrete N = 3 sequences, PENDING/PENDING/CONFIRMED succeeds on the third
check while PENDING/PENDING/PENDING times out. -/
theorem waitForTransactionCompletion_spec :
    (∀ (r : Nat → CheckResult) (step : String) (N n : Nat),
      n < N → (∀ i, i < n → isConfirmedCheck (r i) = false) →
      isConfirmedCheck (r n) = true →
      waitForTransactionCompletionGen r step N = Except.ok (txHashOf (r n))) ∧
    (∀ (r : Nat → CheckResult) (step : String) (N : Nat),
      (∀ i, i < N → isConfirmedCheck (r i) = false) →
      waitForTransactionCompletionGen r step N
        = Except.error ("Timeout waiting for " ++ step ++ " transaction completion")) ∧
    (∀ (r r' : Nat → CheckResult) (step : String) (N : Nat),
      (∀ i, i < N → r i = r' i) →
      waitForTransactionCompletionGen r step N = waitForTransactionCompletionGen r' step N) ∧
    (∀ (r : Nat → CheckResult) (step : String),
      waitForTransactionCompletion r step = waitForTransactionCompletionGen r step 40) ∧
    waitForTransactionCompletionGen seqPPC "Approval" 3 = Except.ok "0xabc" ∧
    waitForTransactionCompletionGen seqPPP "Approval" 3
      = Except.error "Timeout waiting for Approval transaction completion" := by
  refine ⟨?_, ?_, ?_, fun _ _ => rfl, rfl, rfl⟩
  · intro r step N n hN hnot hc
    simpa using wfcLoop_first_confirmed r step N n 0 hN (by simpa using hnot) (by simpa using hc)
  · intro r step N hnot
    exact wfcLoop_timeout r step N 0 (by simpa using hnot)
  · intro r r' step N hag
    exact wfcLoop_congr step N 0 r r' (fun i _ h2 => hag i (by omega))

/-- Witness for C2: the first-confirmed clause applied to the concrete
sequence PENDING, PENDING, CONFIRMED with budget 3. -/
theorem waitForTransactionCompletion_spec_witness :
    waitForTransactionCompletionGen seqPPC "Burn" 3 = Except.ok (txHashOf (seqPPC 2)) :=
  waitForTransactionCompletion_spec.1 seqPPC "Burn" 3 2 (by omega) (by decide) (by decide)

/-! ## Attestation poller (waitForAttestation, lines 635-689) -/

/-- One element of the `messages` array of the attestation API response.
A JS-absent `attestation` field is the empty string (falsy either way). -/
structure AttMessage where
  message : String
  attestation : String
deriving DecidableEq, Repr

/-- The `{message, attestation}` record waitForAttestation returns. -/
structure Attestation where
  message : String
  attestation : String
deriving DecidableEq, Repr

/-- Outcome of one `fetch` of the attestation endpoint: either the fetch (or
the JSON parse) threw, or an HTTP response arrived with `response.ok`,
`response.status`, `response.statusText` and the parsed `messages` array. -/
inductive FetchResult where
  | failure (msg : String)
  | response (respOk : Bool) (status : Nat) (statusText : String) (messages : List AttMessage)
deriving DecidableEq, Repr

/-- A response whose first message carries a non-empty attestation - the
only shape on which the poller returns. -/
def isAttSuccess : FetchResult → Bool
  | .response respOk _ _ (m :: _) => respOk && m.attestation != ""
  | _ => false

/-- The attestation the successful response carries (dummy otherwise). -/
def attOf : FetchResult → Attestation
  | .response _ _ _ (m :: _) => ⟨m.message, m.attestation⟩
  | _ => ⟨"", ""⟩

/-- The while loop of waitForAttestation.  As in `wfcLoop`, `attempts`
indexes the next fetch and the fuel is `maxAttempts - attempts`.  A non-ok
response that is not a 404 throws, but the throw lands in the catch of the
same loop iteration, which increments `attempts` and continues - exactly
like the 404 branch, the empty-messages branch and the
attestation-not-ready branch. -/
def wfaLoop (r : Nat → FetchResult) (maxAttempts : Nat) : Nat → Nat → Except String Attestation
  | _, 0 => .error ("Timeout waiting for attestation after " ++ toString maxAttempts ++ " attempts")
  | attempts, f + 1 =>
    match r attempts with
    | .failure _ => wfaLoop r maxAttempts (attempts + 1) f
    | .response respOk status _ messages =>
      if !respOk then
        if status == 404 then wfaLoop r maxAttempts (attempts + 1) f
        else wfaLoop r maxAttempts (attempts + 1) f
      else
        match messages with
        | [] => wfaLoop r maxAttempts (attempts + 1) f
        | m :: _ =>
          if m.attestation != "" then .ok ⟨m.message, m.attestation⟩
          else wfaLoop r maxAttempts (attempts + 1) f

/-- waitForAttestation: resolves the source domain id (a throw there
propagates to the caller), then polls the endpoint
`/v1/messages/{sourceDomainId}/{burnTxHash}` up to 40 times.  The oracle
`fetch` maps (sourceDomainId, burnTxHash, attempt index) to the response of
that attempt. -/
def waitForAttestation (burnTxHash sourceBlockchain : String)
    (fetch : Nat → String → Nat → FetchResult) : Except String Attestation :=
  match getCCTPDomainId sourceBlockchain with
  | .error e => .error e
  | .ok sourceDomainId => wfaLoop (fetch sourceDomainId burnTxHash) 40 0 40

lemma wfaLoop_not_success (r : Nat → FetchResult) (N a f : Nat)
    (h : isAttSuccess (r a) = false) :
    wfaLoop r N a (f + 1) = wfaLoop r N (a + 1) f := by
  cases hr : r a with
  | failure m => simp only [wfaLoop, hr]
  | response respOk status stt messages =>
    cases respOk with
    | false =>
      simp only [wfaLoop, hr, Bool.not_false, if_true]
      split <;> rfl
    | true =>
      cases messages with
      | nil => simp only [wfaLoop, hr, Bool.not_true, Bool.false_eq_true, if_false]
      | cons m rest =>
        have hb : (m.attestation != "") = false := by
          simpa [isAttSuccess, hr] using h
        simp only [wfaLoop, hr, Bool.not_true, Bool.false_eq_true, if_false, hb]

lemma isAttSuccess_false_of_not_ok (status : Nat) (stt : String) (msgs : List AttMessage) :
    isAttSuccess (FetchResult.response false status stt msgs) = false := by
  cases msgs <;> simp [isAttSuccess]

lemma wfaLoop_success (r : Nat → FetchResult) (N a f : Nat)
    (h : isAttSuccess (r a) = true) :
    wfaLoop r N a (f + 1) = .ok (attOf (r a)) := by
  cases hr : r a with
  | failure m => simp [isAttSuccess, hr] at h
  | response respOk status stt messages =>
    cases messages with
    | nil => simp [isAttSuccess, hr] at h
    | cons m rest =>
      cases respOk with
      | false => simp [isAttSuccess, hr] at h
      | true =>
        have hb : (m.attestation != "") = true := by
          simpa [isAttSuccess, hr] using h
        simp only [wfaLoop, hr, Bool.not_true, Bool.false_eq_true, if_false, hb, if_true, attOf]

lemma wfaLoop_first_success (r : Nat → FetchResult) (N : Nat) :
    ∀ (f n a : Nat), n < f →
      (∀ i, i < n → isAttSuccess (r (a + i)) = false) →
      isAttSuccess (r (a + n)) = true →
      wfaLoop r N a f = .ok (attOf (r (a + n))) := by
  intro f
  induction f with
  | zero => intro n a hn; omega
  | succ f ih =>
    intro n a hn hnot hc
    cases n with
    | zero =>
      simpa using wfaLoop_success r N a f (by simpa using hc)
    | succ m =>
      rw [wfaLoop_not_success r N a f (by simpa using hnot 0 (by omega))]
      have hshift : ∀ i, i < m → isAttSuccess (r (a + 1 + i)) = false := by
        intro i hi
        have := hnot (i + 1) (by omega)
        have heq : a + (i + 1) = a + 1 + i := by omega
        rwa [heq] at this
      have hc2 : isAttSuccess (r (a + 1 + m)) = true := by
        have heq : a + (m + 1) = a + 1 + m := by omega
        rwa [heq] at hc
      have heq2 : a + 1 + m = a + (m + 1) := by omega
      have := ih m (a + 1) (by omega) hshift hc2
      rwa [heq2] at this

lemma wfaLoop_timeout (r : Nat → FetchResult) (N : Nat) :
    ∀ (f a : Nat), (∀ i, i < f → isAttSuccess (r (a + i)) = false) →
      wfaLoop r N a f
        = .error ("Timeout waiting for attestation after " ++ toString N ++ " attempts") := by
  intro f
  induction f with
  | zero => intro a _; rfl
  | succ m ih =>
    intro a hnot
    rw [wfaLoop_not_success r N a m (by simpa using hnot 0 (by omega))]
    exact ih (a + 1) (fun i hi => by
      have := hnot (i + 1) (by omega)
      have heq : a + (i + 1) = a + 1 + i := by omega
      rwa [heq] at this)

/-! ## Claim C3: error handling of the attestation poller -/

/-- C3: the attestation poller keeps polling - it never fails early - on an
HTTP 404, on any other non-success HTTP status (the throw is caught by the
loop), and on a response with an empty messages array; it returns the
message/attestation pair of the first response whose messages[0].attestation
is non-empty; and it fails with the attestation-timeout error once the
40-attempt budget is exhausted without such a response. -/
theorem waitForAttestation_spec :
    (∀ (r : Nat → FetchResult) (N a f status : Nat) (stt : String) (msgs : List AttMessage),
      r a = FetchResult.response false status stt msgs → status = 404 →
      wfaLoop r N a (f + 1) = wfaLoop r N (a + 1) f) ∧
    (∀ (r : Nat → FetchResult) (N a f status : Nat) (stt : String) (msgs : List AttMessage),
      r a = FetchResult.response false status stt msgs →
      wfaLoop r N a (f + 1) = wfaLoop r N (a + 1) f) ∧
    (∀ (r : Nat → FetchResult) (N a f status : Nat) (stt : String),
      r a = FetchResult.response true status stt [] →
      wfaLoop r N a (f + 1) = wfaLoop r N (a + 1) f) ∧
    (∀ (burnTxHash sourceBlockchain : String) (fetch : Nat → String → Nat → FetchResult)
        (d n : Nat),
      getCCTPDomainId sourceBlockchain = Except.ok d → n < 40 →
      (∀ i, i < n → isAttSuccess (fetch d burnTxHash i) = false) →
      isAttSuccess (fetch d burnTxHash n) = true →
      waitForAttestation burnTxHash sourceBlockchain fetch
        = Except.ok (attOf (fetch d burnTxHash n))) ∧
    (∀ (burnTxHash sourceBlockchain : String) (fetch : Nat → String → Nat → FetchResult)
        (d : Nat),
      getCCTPDomainId sourceBlockchain = Except.ok d →
      (∀ i, i < 40 → isAttSuccess (fetch d burnTxHash i) = false) →
      waitForAttestation burnTxHash sourceBlockchain fetch
        = Except.error "Timeout waiting for attestation after 40 attempts") := by
  refine ⟨?_, ?_, ?_, ?_, ?_⟩
  · intro r N a f status stt msgs hr _
    exact wfaLoop_not_success r N a f (by rw [hr]; exact isAttSuccess_false_of_not_ok _ _ _)
  · intro r N a f status stt msgs hr
    exact wfaLoop_not_success r N a f (by rw [hr]; exact isAttSuccess_false_of_not_ok _ _ _)
  · intro r N a f status stt hr
    exact wfaLoop_not_success r N a f (by simp [isAttSuccess, hr])
  · intro bh sc fetch d n hd hn hnot hc
    unfold waitForAttestation
    rw [hd]
    simpa using wfaLoop_first_success (fetch d bh) 40 40 n 0 hn (by simpa using hnot)
      (by simpa using hc)
  · intro bh sc fetch d hd hnot
    unfold waitForAttestation
    rw [hd]
    exact wfaLoop_timeout (fetch d bh) 40 40 0 (by simpa using hnot)

/-- A concrete attestation-endpoint oracle: two 404 responses, then a
success carrying the pair (message-bytes, attestation-bytes). -/
def fetch404Then : Nat → String → Nat → FetchResult := fun _ _ i =>
  if i < 2 then .response false 404 "Not Found" []
  else .response true 200 "OK" [⟨"message-bytes", "attestation-bytes"⟩]

/-- Witness for C3: the first-success clause applied to the concrete oracle
that answers 404 twice and then delivers the attestation. -/
theorem waitForAttestation_spec_witness :
    waitForAttestation "0xburn" "ETH-SEPOLIA" fetch404Then
      = Except.ok (attOf (fetch404Then 0 "0xburn" 2)) :=
  waitForAttestation_spec.2.2.2.1 "0xburn" "ETH-SEPOLIA" fetch404Then 0 2 rfl (by omega)
    (by decide) (by decide)

/-! ## Transfer saga (performCrossChainTransfer, lines 137-396) -/

/-- A wallet as read from the custody API (with the wallet-set name the code
attaches in getAllWallets). -/
structure Wallet where
  id : String
  address : String
  blockchain : String
  state : String
  walletSetName : String
deriving DecidableEq, Repr

/-- Placeholder for the JS `undefined` produced by an out-of-range array
index; every use below is behind a bounds guard, so it is never read. -/
def undefinedWallet : Wallet := ⟨"", "", "", "", ""⟩

/-- One createContractExecutionTransaction request, the observable unit of
the saga: wallet, contract address, ABI signature, ABI parameters, and the
fee level (always a level/MEDIUM configuration in the source). -/
structure ContractCall where
  walletId : String
  contractAddress : String
  abiFunctionSignature : String
  abiParameters : List String
  feeLevel : String
deriving DecidableEq, Repr

/-- The TokenMessenger contract address hard-coded at lines 263 and 298. -/
def tokenMessengerAddress : String := "0x9f3B8679c73C2Fef8b59B4f3444d4e156fb70AA5"

/-- The approval submission of step 1 (lines 258-272). -/
def approvalCall (sourceWallet : Wallet) (transferAmount : ℚ) : ContractCall :=
  ⟨sourceWallet.id, usdcContractOf sourceWallet.blockchain, "approve(address,uint256)",
   [tokenMessengerAddress, numToString (transferAmount * 1000000)], "MEDIUM"⟩

/-- The burn submission of step 2 (lines 296-312). -/
def burnCall (sourceWallet destinationWallet : Wallet) (transferAmount : ℚ)
    (destinationDomain : Nat) : ContractCall :=
  ⟨sourceWallet.id, tokenMessengerAddress, "depositForBurn(uint256,uint32,bytes32,address)",
   [numToString (transferAmount * 1000000), toString destinationDomain,
    addressToBytes32 destinationWallet.address, usdcContractOf sourceWallet.blockchain],
   "MEDIUM"⟩

/-- The mint submission of step 4 (lines 343-357 and 461-475). -/
def mintCall (destinationWallet : Wallet) (messageTransmitter : String)
    (att : Attestation) : ContractCall :=
  ⟨destinationWallet.id, messageTransmitter, "receiveMessage(bytes,bytes)",
   [att.message, att.attestation], "MEDIUM"⟩

/-- Environment of one performCrossChainTransfer run: the wallet list the
custody API returns, the USDC balance lookup (getWalletBalance followed by
findUSDCBalance, per wallet id), the three prompt answers after JS parsing
(`parseInt`/`parseFloat` results, `none` for NaN), the confirmation answer,
and the three oracles for transaction creation (response `data?.id` of the
n-th submission), status polling and attestation fetching. -/
structure SagaEnv where
  wallets : List Wallet
  usdcBalanceOf : String → ℚ
  sourceChoice : Option Int
  destChoice : Option Int
  amount : Option ℚ
  confirmation : String
  createTxId : Nat → Option String
  txStatus : String → Nat → CheckResult
  fetch : Nat → String → Nat → FetchResult

/-- The supportedWallets filter of line 152: supported network and LIVE. -/
def supportedWalletsOf (env : SagaEnv) : List Wallet :=
  env.wallets.filter (fun w => (SUPPORTED_NETWORKS w.blockchain).isSome && w.state == "LIVE")

/-- The destinationWallets filter of line 192: different blockchain. -/
def destinationWalletsOf (env : SagaEnv) (sourceWallet : Wallet) : List Wallet :=
  (supportedWalletsOf env).filter (fun w => w.blockchain != sourceWallet.blockchain)

/-- The wallet selected by a 1-based menu answer `k` (line 168/175). -/
def sourceWalletAt (env : SagaEnv) (k : Int) : Wallet :=
  (supportedWalletsOf env).getD (k - 1).toNat undefinedWallet

/-- The destination wallet selected by a 1-based menu answer `k` (line
205/212). -/
def destWalletAt (env : SagaEnv) (sourceWallet : Wallet) (k : Int) : Wallet :=
  (destinationWalletsOf env sourceWallet).getD (k - 1).toNat undefinedWallet

/-- How the interactive phase (lines 144-246) ended: an early console
return or a thrown-and-caught error (`halt`), or the confirmed intent
(`proceed`).  A `none` menu answer models parseInt returning NaN: the
bounds guard passes (NaN comparisons are false) and the undefined wallet
is dereferenced at the following console.log, throwing a TypeError that the
outer catch logs. -/
inductive Resolution where
  | halt (caught : Option String)
  | proceed (sourceWallet destinationWallet : Wallet) (transferAmount : ℚ)
deriving DecidableEq, Repr

/-- The validation and selection phase of performCrossChainTransfer (lines
144-246), ending before the first on-chain submission. -/
def resolveIntent (env : SagaEnv) : Resolution :=
  if env.wallets.length = 0 then .halt none
  else if (supportedWalletsOf env).length < 2 then .halt none
  else
    match env.sourceChoice with
    | none => .halt (some "TypeError: undefined source wallet")
    | some k =>
      if k - 1 < 0 ∨ ((supportedWalletsOf env).length : Int) ≤ k - 1 then .halt none
      else if env.usdcBalanceOf (sourceWalletAt env k).id ≤ 0 then .halt none
      else if (destinationWalletsOf env (sourceWalletAt env k)).length = 0 then .halt none
      else
        match env.destChoice with
        | none => .halt (some "TypeError: undefined destination wallet")
        | some k2 =>
          if k2 - 1 < 0 ∨ ((destinationWalletsOf env (sourceWalletAt env k)).length : Int) ≤ k2 - 1 then
            .halt none
          else
            match env.amount with
            | none => .halt none
            | some transferAmount =>
              if transferAmount ≤ 0 then .halt none
              else if env.usdcBalanceOf (sourceWalletAt env k).id < transferAmount then .halt none
              else if toLowerJS env.confirmation != "yes" && toLowerJS env.confirmation != "y" then
                .halt none
              else .proceed (sourceWalletAt env k) (destWalletAt env (sourceWalletAt env k) k2)
                transferAmount

/-- Steps 3 and 4 (lines 326-367, textually repeated at lines 444-485 of
recoverFromBurn): poll the attestation for the burn hash, then submit
receiveMessage on the destination chain with the attestation payload and
poll the mint transaction.  `createMintId` is the custody response to the
mint submission; the `if (!attestation) throw` of the source is dead code
because waitForAttestation either returns an object or throws. -/
def mintPhase (fetch : Nat → String → Nat → FetchResult) (createMintId : Option String)
    (txStatus : String → Nat → CheckResult) (burnTxHash sourceBlockchain : String)
    (destinationWallet : Wallet) : List ContractCall × Except String Unit :=
  match waitForAttestation burnTxHash sourceBlockchain fetch with
  | .error e => ([], .error e)
  | .ok attestation =>
    match getMessageTransmitterAddress destinationWallet.blockchain with
    | .error e => ([], .error e)
    | .ok mta =>
      match createMintId with
      | none => ([mintCall destinationWallet mta attestation],
                 .error "Failed to create mint transaction")
      | some mintTx =>
        match waitForTransactionCompletion (txStatus mintTx) "Mint" with
        | .error e => ([mintCall destinationWallet mta attestation], .error e)
        | .ok _ => ([mintCall destinationWallet mta attestation], .ok ())

/-- The submission phase of performCrossChainTransfer (lines 253-392):
approval, burn, then `mintPhase`.  Submission indices 0, 1, 2 of
`env.createTxId` are the approval, burn and mint submissions. -/
def executeTransfer (env : SagaEnv) (sourceWallet destinationWallet : Wallet)
    (transferAmount : ℚ) : List ContractCall × Except String Unit :=
  match env.createTxId 0 with
  | none => ([approvalCall sourceWallet transferAmount],
             .error "Failed to create approval transaction")
  | some approvalTx =>
    match waitForTransactionCompletion (env.txStatus approvalTx) "Approval" with
    | .error e => ([approvalCall sourceWallet transferAmount], .error e)
    | .ok _ =>
      match getCCTPDomainId destinationWallet.blockchain with
      | .error e => ([approvalCall sourceWallet transferAmount], .error e)
      | .ok destinationDomain =>
        match env.createTxId 1 with
        | none => ([approvalCall sourceWallet transferAmount,
                    burnCall sourceWallet destinationWallet transferAmount destinationDomain],
                   .error "Failed to create burn transaction")
        | some burnTx =>
          match waitForTransactionCompletion (env.txStatus burnTx) "Burn" with
          | .error e => ([approvalCall sourceWallet transferAmount,
                          burnCall sourceWallet destinationWallet transferAmount destinationDomain],
                         .error e)
          | .ok burnTxHash =>
            (approvalCall sourceWallet transferAmount ::
             burnCall sourceWallet destinationWallet transferAmount destinationDomain ::
             (mintPhase env.fetch (env.createTxId 2) env.txStatus burnTxHash
               sourceWallet.blockchain destinationWallet).1,
             (mintPhase env.fetch (env.createTxId 2) env.txStatus burnTxHash
               sourceWallet.blockchain destinationWallet).2)

/-- performCrossChainTransfer: the interactive phase, then, only when it
confirmed an intent, the submissions.  The first component lists the
submitted contract executions in order; the second is the logged outcome. -/
def performCrossChainTransfer (env : SagaEnv) : List ContractCall × Except String Unit :=
  match resolveIntent env with
  | .halt none => ([], .ok ())
  | .halt (some e) => ([], .error e)
  | .proceed sw dw amt => executeTransfer env sw dw amt

/-! ## Recovery entry point (recoverFromBurn, lines 399-500) -/

/-- Environment of one recoverFromBurn run.  The two string answers are the
values askQuestion resolves (already trimmed at line 27); `destChoice` is
the parseInt result of the destination answer. -/
structure RecoveryEnv where
  burnTxHashInput : String
  sourceChoice : String
  wallets : List Wallet
  destChoice : Option Int
  createTxId : Nat → Option String
  txStatus : String → Nat → CheckResult
  fetch : Nat → String → Nat → FetchResult

/-- Line 416: `sourceChoice === "1" ? "ETH-SEPOLIA" : "MATIC-AMOY"`. -/
def recoverySourceBlockchain (sourceChoice : String) : String :=
  if sourceChoice = "1" then "ETH-SEPOLIA" else "MATIC-AMOY"

/-- The destination-wallet filter of lines 420-422: any wallet on a
supported network other than the selected source blockchain. -/
def recoveryDestWalletsOf (renv : RecoveryEnv) : List Wallet :=
  renv.wallets.filter (fun w =>
    w.blockchain != recoverySourceBlockchain renv.sourceChoice &&
    (SUPPORTED_NETWORKS w.blockchain).isSome)

/-- How the interactive phase of recoverFromBurn (lines 404-442) ended.
A `none` destChoice passes the NaN-transparent bounds guard and then
dereferences undefined at line 442, outside any try block. -/
inductive RecResolution where
  | halt (caught : Option String)
  | proceed (burnTxHash sourceBlockchain : String) (destinationWallet : Wallet)
deriving DecidableEq, Repr

/-- The validation and selection phase of recoverFromBurn (lines 404-442). -/
def resolveRecovery (renv : RecoveryEnv) : RecResolution :=
  if trimJS renv.burnTxHashInput = "" then .halt none
  else if (recoveryDestWalletsOf renv).length = 0 then .halt none
  else
    match renv.destChoice with
    | none => .halt (some "TypeError: undefined destination wallet")
    | some k =>
      if k - 1 < 0 ∨ ((recoveryDestWalletsOf renv).length : Int) ≤ k - 1 then .halt none
      else .proceed renv.burnTxHashInput (recoverySourceBlockchain renv.sourceChoice)
        ((recoveryDestWalletsOf renv).getD (k - 1).toNat undefinedWallet)

/-- recoverFromBurn: after the interactive phase it runs exactly the
attestation-and-mint phase, with the user-supplied burn hash and the chosen
source blockchain; its single possible submission is the mint (submission
index 0 of `renv.createTxId`). -/
def recoverFromBurn (renv : RecoveryEnv) : List ContractCall × Except String Unit :=
  match resolveRecovery renv with
  | .halt none => ([], .ok ())
  | .halt (some e) => ([], .error e)
  | .proceed burnTxHash sourceBlockchain destinationWallet =>
    mintPhase renv.fetch (renv.createTxId 0) renv.txStatus burnTxHash sourceBlockchain
      destinationWallet

/-- The mint submissions within a trace. -/
def mintSubmissions (t : List ContractCall) : List ContractCall :=
  t.filter (fun c => c.abiFunctionSignature == "receiveMessage(bytes,bytes)")

/-! ## A concrete happy-path environment (the end-to-end scenario of the
spec: balance 100 USDC, transfer 50 USDC from an ETH-SEPOLIA wallet to a
MATIC-AMOY wallet, every external call succeeding at once) -/

/-- The source wallet of the concrete scenario. -/
def w1happy : Wallet :=
  ⟨"wallet-1", "0x1111111111111111111111111111111111111111", "ETH-SEPOLIA", "LIVE", "demo-set"⟩

/-- The destination wallet of the concrete scenario. -/
def w2happy : Wallet :=
  ⟨"wallet-2", "0x2222222222222222222222222222222222222222", "MATIC-AMOY", "LIVE", "demo-set"⟩

/-- Custody responses: submission n receives transaction id tx-approval,
tx-burn, tx-mint. -/
def happyCreate : Nat → Option String := fun n =>
  if n = 0 then some "tx-approval" else if n = 1 then some "tx-burn" else some "tx-mint"

/-- Status oracle: every transaction is CONFIRMED at the first check, with
hash "hash-" followed by its id. -/
def happyStatus : String → Nat → CheckResult := fun txId _ =>
  .response (some ⟨"CONFIRMED", "hash-" ++ txId⟩)

/-- Attestation oracle: the attestation is ready at the first fetch. -/
def happyFetch : Nat → String → Nat → FetchResult := fun _ _ _ =>
  .response true 200 "OK" [⟨"message-bytes", "attestation-bytes"⟩]

/-- The full happy-path environment: both wallets LIVE on supported
networks, balance 100 USDC everywhere, menu answers 1 and 1, amount 50,
confirmation "yes". -/
def happyEnv : SagaEnv :=
  ⟨[w1happy, w2happy], fun _ => 100, some 1, some 1, some 50, "yes",
   happyCreate, happyStatus, happyFetch⟩

lemma numToString_fifty_million : numToString ((50 : ℚ) * 1000000) = "50000000" := by
  have h1 : ((50 : ℚ) * 1000000) = (50000000 : ℚ) := by norm_num
  rw [h1]
  unfold numToString
  rw [if_pos (Rat.den_ofNat 50000000)]
  decide

lemma resolveIntent_happy : resolveIntent happyEnv = .proceed w1happy w2happy 50 := by
  decide

/-! ## Claim C8: the concrete end-to-end scenario -/

/-- C8: in the end-to-end run with balance 100 and transfer amount 50, the
approval and the burn both carry the amount string "50000000" (the decimal
string of 50 x 10^6), the burn additionally carries the destination domain
from getCCTPDomainId (7 for MATIC-AMOY) and the addressToBytes32 encoding
of the destination address, and the mint is submitted with exactly the
message/attestation pair the attestation poller returned. -/
theorem happy_path_scenario :
    numToString ((50 : ℚ) * 1000000) = "50000000" ∧
    getCCTPDomainId w2happy.blockchain = Except.ok 7 ∧
    waitForAttestation "hash-tx-burn" w1happy.blockchain happyFetch
      = Except.ok ⟨"message-bytes", "attestation-bytes"⟩ ∧
    performCrossChainTransfer happyEnv =
      ([⟨"wallet-1", usdcContractOf "ETH-SEPOLIA", "approve(address,uint256)",
         [tokenMessengerAddress, "50000000"], "MEDIUM"⟩,
        ⟨"wallet-1", tokenMessengerAddress, "depositForBurn(uint256,uint32,bytes32,address)",
         ["50000000", "7", addressToBytes32 "0x2222222222222222222222222222222222222222",
          usdcContractOf "ETH-SEPOLIA"], "MEDIUM"⟩,
        ⟨"wallet-2", "0x7865fAfC2db2093669d92c0F33AeEF291086BEFD", "receiveMessage(bytes,bytes)",
         ["message-bytes", "attestation-bytes"], "MEDIUM"⟩], Except.ok ()) := by
  refine ⟨numToString_fifty_million, rfl, rfl, ?_⟩
  rw [performCrossChainTransfer, resolveIntent_happy]
  show executeTransfer happyEnv w1happy w2happy 50 = _
  rw [executeTransfer]
  simp only [happyEnv, happyCreate, happyStatus, happyFetch]
  norm_num
  simp only [approvalCall, burnCall, numToString_fifty_million]
  rfl

/-! ## Facts about the validation phase -/

lemma getD_mem {α : Type} (l : List α) (n : Nat) (d : α) (h : n < l.length) :
    l.getD n d ∈ l := by
  induction l generalizing n with
  | nil => simp at h
  | cons a t ih =>
    cases n with
    | zero => simp [List.getD_cons_zero]
    | succ m =>
      rw [List.getD_cons_succ]
      exact List.mem_cons_of_mem a (ih m (by simpa using h))

lemma mem_supportedWalletsOf {env : SagaEnv} {w : Wallet} (h : w ∈ supportedWalletsOf env) :
    (SUPPORTED_NETWORKS w.blockchain).isSome = true ∧ w.state = "LIVE" := by
  unfold supportedWalletsOf at h
  rw [List.mem_filter] at h
  have h2 := h.2
  rw [Bool.and_eq_true] at h2
  exact ⟨h2.1, by simpa using h2.2⟩

lemma mem_destinationWalletsOf {env : SagaEnv} {sw w : Wallet}
    (h : w ∈ destinationWalletsOf env sw) :
    w ∈ supportedWalletsOf env ∧ w.blockchain ≠ sw.blockchain := by
  unfold destinationWalletsOf at h
  rw [List.mem_filter] at h
  exact ⟨h.1, by simpa using h.2⟩

lemma resolveIntent_proceed_props (env : SagaEnv) (sw dw : Wallet) (amt : ℚ)
    (h : resolveIntent env = Resolution.proceed sw dw amt) :
    sw ∈ supportedWalletsOf env ∧ dw ∈ destinationWalletsOf env sw ∧
    0 < amt ∧ amt ≤ env.usdcBalanceOf sw.id := by
  simp only [resolveIntent] at h
  by_cases h0 : env.wallets.length = 0
  · simp only [if_pos h0] at h
    exact absurd h (by simp)
  simp only [if_neg h0] at h
  by_cases h1 : (supportedWalletsOf env).length < 2
  · simp only [if_pos h1] at h
    exact absurd h (by simp)
  simp only [if_neg h1] at h
  rcases hsc : env.sourceChoice with _ | k
  · simp only [hsc] at h
    exact absurd h (by simp)
  simp only [hsc] at h
  by_cases h2 : k - 1 < 0 ∨ ((supportedWalletsOf env).length : Int) ≤ k - 1
  · simp only [if_pos h2] at h
    exact absurd h (by simp)
  simp only [if_neg h2] at h
  by_cases h3 : env.usdcBalanceOf (sourceWalletAt env k).id ≤ 0
  · simp only [if_pos h3] at h
    exact absurd h (by simp)
  simp only [if_neg h3] at h
  by_cases h4 : (destinationWalletsOf env (sourceWalletAt env k)).length = 0
  · simp only [if_pos h4] at h
    exact absurd h (by simp)
  simp only [if_neg h4] at h
  rcases hdc : env.destChoice with _ | k2
  · simp only [hdc] at h
    exact absurd h (by simp)
  simp only [hdc] at h
  by_cases h5 : k2 - 1 < 0 ∨ ((destinationWalletsOf env (sourceWalletAt env k)).length : Int) ≤ k2 - 1
  · simp only [if_pos h5] at h
    exact absurd h (by simp)
  simp only [if_neg h5] at h
  rcases ham : env.amount with _ | amt'
  · simp only [ham] at h
    exact absurd h (by simp)
  simp only [ham] at h
  by_cases h6 : amt' ≤ 0
  · simp only [if_pos h6] at h
    exact absurd h (by simp)
  simp only [if_neg h6] at h
  by_cases h7 : env.usdcBalanceOf (sourceWalletAt env k).id < amt'
  · simp only [if_pos h7] at h
    exact absurd h (by simp)
  simp only [if_neg h7] at h
  by_cases h8 : toLowerJS env.confirmation != "yes" && toLowerJS env.confirmation != "y"
  · simp only [h8, if_true] at h
    exact absurd h (by simp)
  simp only [h8, Bool.false_eq_true, if_false] at h
  rw [Resolution.proceed.injEq] at h
  obtain ⟨rfl, rfl, rfl⟩ := h
  rw [not_or] at h2
  rw [not_or] at h5
  refine ⟨?_, ?_, not_le.mp h6, not_lt.mp h7⟩
  · unfold sourceWalletAt
    exact getD_mem _ _ _ (by omega)
  · unfold destWalletAt
    exact getD_mem _ _ _ (by omega)

/-! ## Claim C9: preconditions of an initiated transfer -/

/-- C9: whenever performCrossChainTransfer submits anything at all, the
confirmed intent used a source and a destination wallet both LIVE on a
supported network and on different blockchains, and a positive transfer
amount not exceeding the source wallet USDC balance; every run in which
some condition fails halts with an empty submission list. -/
theorem transfer_preconditions :
    ∀ env : SagaEnv, (performCrossChainTransfer env).1 ≠ [] →
      ∃ sw dw amt, resolveIntent env = Resolution.proceed sw dw amt ∧
        (SUPPORTED_NETWORKS sw.blockchain).isSome = true ∧ sw.state = "LIVE" ∧
        (SUPPORTED_NETWORKS dw.blockchain).isSome = true ∧ dw.state = "LIVE" ∧
        dw.blockchain ≠ sw.blockchain ∧
        0 < amt ∧ amt ≤ env.usdcBalanceOf sw.id := by
  intro env hne
  rcases hres : resolveIntent env with e | ⟨sw, dw, amt⟩
  · exfalso
    apply hne
    cases e with
    | none => simp [performCrossChainTransfer, hres]
    | some msg => simp [performCrossChainTransfer, hres]
  · obtain ⟨hsw, hdw, hamt, hbal⟩ := resolveIntent_proceed_props env sw dw amt hres
    obtain ⟨hsup, hlive⟩ := mem_supportedWalletsOf hsw
    obtain ⟨hdw2, hne2⟩ := mem_destinationWalletsOf hdw
    obtain ⟨hsup2, hlive2⟩ := mem_supportedWalletsOf hdw2
    exact ⟨sw, dw, amt, rfl, hsup, hlive, hsup2, hlive2, hne2, hamt, hbal⟩

/-- Witness for C9: the happy-path run submits transactions, and the
theorem recovers the validated intent behind them. -/
theorem transfer_preconditions_witness :
    ∃ sw dw amt, resolveIntent happyEnv = Resolution.proceed sw dw amt ∧
      (SUPPORTED_NETWORKS sw.blockchain).isSome = true ∧ sw.state = "LIVE" ∧
      (SUPPORTED_NETWORKS dw.blockchain).isSome = true ∧ dw.state = "LIVE" ∧
      dw.blockchain ≠ sw.blockchain ∧
      0 < amt ∧ amt ≤ happyEnv.usdcBalanceOf sw.id :=
  transfer_preconditions happyEnv (by
    intro hempty
    rw [performCrossChainTransfer, resolveIntent_happy] at hempty
    exact absurd hempty (by decide))

/-! ## Facts about the submission phase -/

lemma mintPhase_mem (fetch : Nat → String → Nat → FetchResult) (cm : Option String)
    (ts : String → Nat → CheckResult) (bh sc : String) (dw : Wallet) (c : ContractCall)
    (h : c ∈ (mintPhase fetch cm ts bh sc dw).1) :
    ∃ att mta, waitForAttestation bh sc fetch = Except.ok att ∧
      getMessageTransmitterAddress dw.blockchain = Except.ok mta ∧
      c = mintCall dw mta att := by
  unfold mintPhase at h
  rcases hA : waitForAttestation bh sc fetch with e | att
  · simp only [hA] at h
    simp at h
  · simp only [hA] at h
    rcases hM : getMessageTransmitterAddress dw.blockchain with e | mta
    · simp only [hM] at h
      simp at h
    · simp only [hM] at h
      refine ⟨att, mta, rfl, rfl, ?_⟩
      rcases cm with _ | mintTx
      · simpa using h
      · rcases hW : waitForTransactionCompletion (ts mintTx) "Mint" with e | s
        · simp only [hW] at h
          simpa using h
        · simp only [hW] at h
          simpa using h

/-- The submitted part of the mint phase depends only on the attestation
oracle, the burn hash, the source chain and the destination wallet - not on
the custody responses to the mint submission itself. -/
lemma mintPhase_fst (fetch : Nat → String → Nat → FetchResult) (cm : Option String)
    (ts : String → Nat → CheckResult) (bh sc : String) (dw : Wallet) :
    (mintPhase fetch cm ts bh sc dw).1 =
      match waitForAttestation bh sc fetch with
      | .error _ => []
      | .ok att =>
        match getMessageTransmitterAddress dw.blockchain with
        | .error _ => []
        | .ok mta => [mintCall dw mta att] := by
  unfold mintPhase
  rcases hA : waitForAttestation bh sc fetch with e | att
  · simp only [hA]
  · simp only [hA]
    rcases hM : getMessageTransmitterAddress dw.blockchain with e | mta
    · simp only [hM]
    · simp only [hM]
      rcases cm with _ | mintTx
      · rfl
      · rcases hW : waitForTransactionCompletion (ts mintTx) "Mint" with e | s
        · simp only [hW]
        · simp only [hW]

lemma executeTransfer_mint_mem (env : SagaEnv) (sw dw : Wallet) (amt : ℚ) (c : ContractCall)
    (h : c ∈ (executeTransfer env sw dw amt).1)
    (hsig : c.abiFunctionSignature = "receiveMessage(bytes,bytes)") :
    ∃ burnTx bh att mta, env.createTxId 1 = some burnTx ∧
      waitForTransactionCompletion (env.txStatus burnTx) "Burn" = Except.ok bh ∧
      waitForAttestation bh sw.blockchain env.fetch = Except.ok att ∧
      getMessageTransmitterAddress dw.blockchain = Except.ok mta ∧
      c = mintCall dw mta att := by
  have happ : c ≠ approvalCall sw amt := by
    intro he
    rw [he] at hsig
    have hx : (approvalCall sw amt).abiFunctionSignature = "approve(address,uint256)" := rfl
    rw [hx] at hsig
    exact absurd hsig (by decide)
  have hburn : ∀ d, c ≠ burnCall sw dw amt d := by
    intro d he
    rw [he] at hsig
    have hx : (burnCall sw dw amt d).abiFunctionSignature
        = "depositForBurn(uint256,uint32,bytes32,address)" := rfl
    rw [hx] at hsig
    exact absurd hsig (by decide)
  unfold executeTransfer at h
  rcases h0 : env.createTxId 0 with _ | aTx
  · simp only [h0] at h
    simp at h
    exact absurd h happ
  simp only [h0] at h
  rcases h1 : waitForTransactionCompletion (env.txStatus aTx) "Approval" with e | ah
  · simp only [h1] at h
    simp at h
    exact absurd h happ
  simp only [h1] at h
  rcases h2 : getCCTPDomainId dw.blockchain with e | d
  · simp only [h2] at h
    simp at h
    exact absurd h happ
  simp only [h2] at h
  rcases h3 : env.createTxId 1 with _ | burnTx
  · simp only [h3] at h
    simp at h
    rcases h with h | h
    · exact absurd h happ
    · exact absurd h (hburn d)
  simp only [h3] at h
  rcases h4 : waitForTransactionCompletion (env.txStatus burnTx) "Burn" with e | bh
  · simp only [h4] at h
    simp at h
    rcases h with h | h
    · exact absurd h happ
    · exact absurd h (hburn d)
  simp only [h4] at h
  simp only [List.mem_cons] at h
  rcases h with h | h | h
  · exact absurd h happ
  · exact absurd h (hburn d)
  · obtain ⟨att, mta, hA, hM, hc⟩ :=
      mintPhase_mem env.fetch (env.createTxId 2) env.txStatus bh sw.blockchain dw c h
    exact ⟨burnTx, bh, att, mta, rfl, h4, hA, hM, hc⟩

lemma recoverFromBurn_mem (renv : RecoveryEnv) (c : ContractCall)
    (h : c ∈ (recoverFromBurn renv).1) :
    ∃ bh sc dw att mta, resolveRecovery renv = RecResolution.proceed bh sc dw ∧
      waitForAttestation bh sc renv.fetch = Except.ok att ∧
      getMessageTransmitterAddress dw.blockchain = Except.ok mta ∧
      c = mintCall dw mta att := by
  unfold recoverFromBurn at h
  rcases hres : resolveRecovery renv with e | ⟨bh, sc, dw⟩
  · cases e with
    | none =>
      simp only [hres] at h
      simp at h
    | some msg =>
      simp only [hres] at h
      simp at h
  · simp only [hres] at h
    obtain ⟨att, mta, hA, hM, hc⟩ :=
      mintPhase_mem renv.fetch (renv.createTxId 0) renv.txStatus bh sc dw c h
    exact ⟨bh, sc, dw, att, mta, rfl, hA, hM, hc⟩

/-- The happy-path run, fully evaluated. -/
lemma happyEnv_run :
    performCrossChainTransfer happyEnv =
      ([⟨"wallet-1", usdcContractOf "ETH-SEPOLIA", "approve(address,uint256)",
         [tokenMessengerAddress, "50000000"], "MEDIUM"⟩,
        ⟨"wallet-1", tokenMessengerAddress, "depositForBurn(uint256,uint32,bytes32,address)",
         ["50000000", "7", addressToBytes32 "0x2222222222222222222222222222222222222222",
          usdcContractOf "ETH-SEPOLIA"], "MEDIUM"⟩,
        ⟨"wallet-2", "0x7865fAfC2db2093669d92c0F33AeEF291086BEFD", "receiveMessage(bytes,bytes)",
         ["message-bytes", "attestation-bytes"], "MEDIUM"⟩], Except.ok ()) := by
  rw [performCrossChainTransfer, resolveIntent_happy]
  show executeTransfer happyEnv w1happy w2happy 50 = _
  rw [executeTransfer]
  simp only [happyEnv, happyCreate, happyStatus, happyFetch]
  norm_num
  simp only [approvalCall, burnCall, numToString_fifty_million]
  rfl

/-! ## Claim C1: mint only after a matching attestation -/

/-- C1: in both entry points, a submitted mint transaction
(receiveMessage) exists only in runs where waitForAttestation returned an
attestation for the burn hash of that run - the hash the burn poller
returned in the full saga, the user-supplied hash in recovery - and the
mint abiParameters are exactly the message and attestation fields of that
returned attestation. -/
theorem mint_only_after_attestation :
    (∀ (env : SagaEnv) (c : ContractCall), c ∈ (performCrossChainTransfer env).1 →
      c.abiFunctionSignature = "receiveMessage(bytes,bytes)" →
      ∃ sw dw amt burnTx bh att mta,
        resolveIntent env = Resolution.proceed sw dw amt ∧
        env.createTxId 1 = some burnTx ∧
        waitForTransactionCompletion (env.txStatus burnTx) "Burn" = Except.ok bh ∧
        waitForAttestation bh sw.blockchain env.fetch = Except.ok att ∧
        getMessageTransmitterAddress dw.blockchain = Except.ok mta ∧
        c = mintCall dw mta att ∧
        c.abiParameters = [att.message, att.attestation]) ∧
    (∀ (renv : RecoveryEnv) (c : ContractCall), c ∈ (recoverFromBurn renv).1 →
      c.abiFunctionSignature = "receiveMessage(bytes,bytes)" →
      ∃ bh sc dw att mta,
        resolveRecovery renv = RecResolution.proceed bh sc dw ∧
        waitForAttestation bh sc renv.fetch = Except.ok att ∧
        getMessageTransmitterAddress dw.blockchain = Except.ok mta ∧
        c = mintCall dw mta att ∧
        c.abiParameters = [att.message, att.attestation]) := by
  constructor
  · intro env c hmem hsig
    rcases hres : resolveIntent env with e | ⟨sw, dw, amt⟩
    · exfalso
      cases e with
      | none =>
        simp [performCrossChainTransfer, hres] at hmem
      | some msg =>
        simp [performCrossChainTransfer, hres] at hmem
    · rw [performCrossChainTransfer, hres] at hmem
      obtain ⟨burnTx, bh, att, mta, hc1, hc2, hc3, hc4, hc5⟩ :=
        executeTransfer_mint_mem env sw dw amt c hmem hsig
      exact ⟨sw, dw, amt, burnTx, bh, att, mta, rfl, hc1, hc2, hc3, hc4, hc5,
        by rw [hc5]; rfl⟩
  · intro renv c hmem hsig
    obtain ⟨bh, sc, dw, att, mta, hres, hA, hM, hc⟩ := recoverFromBurn_mem renv c hmem
    exact ⟨bh, sc, dw, att, mta, hres, hA, hM, hc, by rw [hc]; rfl⟩

/-- The mint submission of the happy-path run. -/
def happyMintCall : ContractCall :=
  ⟨"wallet-2", "0x7865fAfC2db2093669d92c0F33AeEF291086BEFD", "receiveMessage(bytes,bytes)",
   ["message-bytes", "attestation-bytes"], "MEDIUM"⟩

/-- Witness for C1: the happy-path mint submission, traced back to its
attestation. -/
theorem mint_only_after_attestation_witness :
    ∃ sw dw amt burnTx bh att mta,
      resolveIntent happyEnv = Resolution.proceed sw dw amt ∧
      happyEnv.createTxId 1 = some burnTx ∧
      waitForTransactionCompletion (happyEnv.txStatus burnTx) "Burn" = Except.ok bh ∧
      waitForAttestation bh sw.blockchain happyEnv.fetch = Except.ok att ∧
      getMessageTransmitterAddress dw.blockchain = Except.ok mta ∧
      happyMintCall = mintCall dw mta att ∧
      happyMintCall.abiParameters = [att.message, att.attestation] :=
  mint_only_after_attestation.1 happyEnv happyMintCall
    (by rw [happyEnv_run]; decide) rfl

/-! ## Claim C7: the recovery entry point refines the full run -/

lemma domain_of_supported (b : String) (h : (SUPPORTED_NETWORKS b).isSome = true) :
    ∃ d, getCCTPDomainId b = Except.ok d := by
  unfold SUPPORTED_NETWORKS at h
  split_ifs at h with h1 h2 h3 h4 h5
  · subst h1; exact ⟨0, rfl⟩
  · subst h2; exact ⟨7, rfl⟩
  · subst h3; exact ⟨1, rfl⟩
  · subst h4; exact ⟨0, rfl⟩
  · subst h5; exact ⟨7, rfl⟩
  · simp at h

lemma mintSubmissions_cons_non (c : ContractCall) (t : List ContractCall)
    (h : (c.abiFunctionSignature == "receiveMessage(bytes,bytes)") = false) :
    mintSubmissions (c :: t) = mintSubmissions t := by
  simp [mintSubmissions, List.filter_cons, h]

/-- C7: recoverFromBurn never submits an approval or a burn - every one of
its submissions is a receiveMessage mint - and whenever a full run reaches
the attestation step (approval and burn confirmed with burn hash bh, source
wallet sw, destination wallet dw) while a recovery run is started from the
same burn hash, the same source blockchain and the same destination wallet
against the same attestation service, the two runs submit exactly the same
mint transactions (same destination wallet, MessageTransmitter contract
address, receiveMessage signature, attestation payload and fee level). -/
theorem recovery_refines_full_run :
    (∀ (renv : RecoveryEnv) (c : ContractCall), c ∈ (recoverFromBurn renv).1 →
      c.abiFunctionSignature = "receiveMessage(bytes,bytes)") ∧
    (∀ (env : SagaEnv) (renv : RecoveryEnv) (sw dw : Wallet) (amt : ℚ)
        (aTx ah burnTx bh : String),
      resolveIntent env = Resolution.proceed sw dw amt →
      env.createTxId 0 = some aTx →
      waitForTransactionCompletion (env.txStatus aTx) "Approval" = Except.ok ah →
      env.createTxId 1 = some burnTx →
      waitForTransactionCompletion (env.txStatus burnTx) "Burn" = Except.ok bh →
      resolveRecovery renv = RecResolution.proceed bh sw.blockchain dw →
      renv.fetch = env.fetch →
      mintSubmissions (recoverFromBurn renv).1
        = mintSubmissions (performCrossChainTransfer env).1) := by
  constructor
  · intro renv c hmem
    obtain ⟨bh, sc, dw, att, mta, _, _, _, hc⟩ := recoverFromBurn_mem renv c hmem
    rw [hc]
    rfl
  · intro env renv sw dw amt aTx ah burnTx bh hres h0 h1 h3 h4 hrres hf
    obtain ⟨hsw, hdw, _, _⟩ := resolveIntent_proceed_props env sw dw amt hres
    obtain ⟨hdw2, _⟩ := mem_destinationWalletsOf hdw
    obtain ⟨hsup, _⟩ := mem_supportedWalletsOf hdw2
    obtain ⟨d, hd⟩ := domain_of_supported dw.blockchain hsup
    rw [performCrossChainTransfer, hres]
    show mintSubmissions (recoverFromBurn renv).1
      = mintSubmissions (executeTransfer env sw dw amt).1
    unfold executeTransfer
    simp only [h0, h1, hd, h3, h4]
    rw [recoverFromBurn, hrres]
    have hc1 : ((approvalCall sw amt).abiFunctionSignature
        == "receiveMessage(bytes,bytes)") = false := rfl
    have hc2 : ((burnCall sw dw amt d).abiFunctionSignature
        == "receiveMessage(bytes,bytes)") = false := rfl
    rw [mintSubmissions_cons_non _ _ hc1, mintSubmissions_cons_non _ _ hc2]
    rw [mintPhase_fst, mintPhase_fst, hf]

/-- The recovery environment matching the happy-path run: the burn hash the
full run obtained, source choice 1 (ETH-SEPOLIA), the same wallets and the
same attestation oracle. -/
def happyRecEnv : RecoveryEnv :=
  ⟨"hash-tx-burn", "1", [w1happy, w2happy], some 1, fun _ => some "tx-mint",
   happyStatus, happyFetch⟩

/-- Witness for C7: the happy-path recovery submits the same mint as the
happy-path full run. -/
theorem recovery_refines_full_run_witness :
    mintSubmissions (recoverFromBurn happyRecEnv).1
      = mintSubmissions (performCrossChainTransfer happyEnv).1 :=
  recovery_refines_full_run.2 happyEnv happyRecEnv w1happy w2happy 50
    "tx-approval" "hash-tx-approval" "tx-burn" "hash-tx-burn"
    resolveIntent_happy rfl rfl rfl rfl (by decide) rfl

/-! ## Claim C10: the recovery source-blockchain prompt -/

/-- C10: at the recovery source-blockchain prompt, every answer other than
the exact string "1" - "2", the empty answer, arbitrary text - selects
MATIC-AMOY: the chosen chain is MATIC-AMOY and the whole run behaves
exactly as with the documented answer "2"; no answer is rejected at this
prompt. -/
theorem recovery_source_choice_default :
    (∀ s : String, s ≠ "1" → recoverySourceBlockchain s = "MATIC-AMOY") ∧
    (∀ renv : RecoveryEnv, renv.sourceChoice ≠ "1" →
      recoverFromBurn renv = recoverFromBurn
        ⟨renv.burnTxHashInput, "2", renv.wallets, renv.destChoice,
         renv.createTxId, renv.txStatus, renv.fetch⟩) := by
  have hbase : ∀ s : String, s ≠ "1" → recoverySourceBlockchain s = "MATIC-AMOY" := by
    intro s hs
    unfold recoverySourceBlockchain
    rw [if_neg hs]
  refine ⟨hbase, ?_⟩
  intro renv hs
  have h2 : recoverySourceBlockchain renv.sourceChoice = recoverySourceBlockchain "2" := by
    rw [hbase _ hs, hbase "2" (by decide)]
  simp only [recoverFromBurn, resolveRecovery, recoveryDestWalletsOf, h2]

/-- A recovery environment whose source answer is arbitrary invalid text. -/
def renvGarbage : RecoveryEnv :=
  ⟨"hash-tx-burn", "junk", [w1happy, w2happy], some 1, fun _ => some "tx-mint",
   happyStatus, happyFetch⟩

/-- Witness for C10: the empty answer selects MATIC-AMOY, and the run with
answer "junk" equals the run with answer "2". -/
theorem recovery_source_choice_default_witness :
    recoverySourceBlockchain "" = "MATIC-AMOY" ∧
    recoverFromBurn renvGarbage = recoverFromBurn
      ⟨renvGarbage.burnTxHashInput, "2", renvGarbage.wallets, renvGarbage.destChoice,
       renvGarbage.createTxId, renvGarbage.txStatus, renvGarbage.fetch⟩ :=
  ⟨recovery_source_choice_default.1 "" (by decide),
   recovery_source_choice_default.2 renvGarbage (by decide)⟩
